import Mathlib

/-!
Verification of the battle-simulation and scoring engine of the
follower-fight repository.

The Python modules `ufc_fight/scoreboard.py`, `ufc_fight/stats.py`,
`ufc_fight/video_battle.py` and `ufc_fight/storage.py` are shallowly
embedded below.  Persistent JSON documents (dictionaries that preserve
insertion order) are modelled as association lists; Python `dict` access
and assignment become `getKey` / `setKey` / `popKey`.  Python machine
floats are modelled by exact rationals (every decimal literal of the
source is the corresponding rational); Python ints are `Int`.
`math.hypot` is modelled by the floor rational square root of the squared
distance, which is exact on every input reached in the concrete theorems
below.
-/

set_option maxRecDepth 16000
set_option maxHeartbeats 1600000

namespace UFC

/-- Lookup in a Python dict modelled as an ordered association list
(`d.get(k)` / `k in d`). -/
def getKey {κ α : Type} [DecidableEq κ] : List (κ × α) → κ → Option α
  | [], _ => none
  | p :: rest, k => if p.1 = k then some p.2 else getKey rest k

/-- Assignment `d[k] = v` on a Python dict: replace the value in place if
the key exists (insertion order preserved), otherwise append. -/
def setKey {κ α : Type} [DecidableEq κ] : List (κ × α) → κ → α → List (κ × α)
  | [], k, v => [(k, v)]
  | p :: rest, k, v => if p.1 = k then (k, v) :: rest else p :: setKey rest k v

/-- Python `d.pop(k, None)`: remove the entry for `k` if present. -/
def popKey {κ α : Type} [DecidableEq κ] : List (κ × α) → κ → List (κ × α)
  | [], _ => []
  | p :: rest, k => if p.1 = k then rest else p :: popKey rest k

/-! ### Data model: ranking entries, score ledger, stats -/

/-- One entry of the Last-run Ranking document: `{username, order,
final_health}`.  `username` is `Option` because `fighter.get("username")`
may be absent (`None`). -/
structure RankEntry where
  username : Option String
  order : Int
  final_health : ℚ
  deriving DecidableEq, Repr

/-- Python `str.strip()`: drop whitespace from both ends. -/
def pyStrip (s : String) : String :=
  ⟨((s.data.dropWhile Char.isWhitespace).reverse.dropWhile Char.isWhitespace).reverse⟩

/-- Model of `str(fighter.get("username") or "").strip()` of scoreboard.py /
stats.py. -/
def trimName (f : RankEntry) : String := pyStrip (f.username.getD "")

/-- One Score Ledger entry: `{points, runs}`. -/
structure ScoreEntry where
  points : Int
  runs : Int
  deriving DecidableEq, Repr

abbrev Scoreboard := List (String × ScoreEntry)

/-- Per-opponent damage record `{damage, hits}` of the Damage Log. -/
structure DmgInfo where
  damage : ℚ
  hits : Int
  deriving DecidableEq, Repr

abbrev DamageLog := List (String × List (String × DmgInfo))

/-- One Stats document entry.  Missing dict keys are folded into the
zero/empty defaults used by the `.get(..., default)` accesses of
stats.py. -/
structure StatsEntry where
  /-- Python field `matches`; `matches` is a reserved word in Lean, hence the primed name. -/
  matches' : Int := 0
  wins : Int := 0
  total_damage_dealt : ℚ := 0
  total_hits : Int := 0
  damage_to : List (String × DmgInfo) := []
  biggest_rival : String := ""
  last_played : Int := 0
  deriving DecidableEq, Repr

abbrev Stats := List (String × StatsEntry)

def defaultStats : StatsEntry := {}

/-! ### scoreboard.py: `update_scoreboard` and the fallback subtraction
of `revert_last_run` -/

/-- Points awarded to `order` in a run of `total` fighters by
scoreboard.py lines 26-29: `max(0, total - order + 1)` plus the winner
bonus for `order == 1`. -/
def points_awarded (total order : Int) : Int :=
  max 0 (total - order + 1) + (if order = 1 then 1 else 0)

/-- Body of the `for fighter in ranking` loop of `update_scoreboard`
(scoreboard.py lines 22-33). -/
def scoreStep (total : Int) (sb : Scoreboard) (f : RankEntry) : Scoreboard :=
  let username := trimName f
  if username = "" then sb
  else
    let pa := points_awarded total f.order
    let entry := (getKey sb username).getD ⟨0, 0⟩
    setKey sb username ⟨entry.points + pa, entry.runs + 1⟩

/-- Model of `update_scoreboard` (scoreboard.py lines 11-36), acting on the
Score Ledger document. -/
def update_scoreboard (ranking : List RankEntry) (sb : Scoreboard) : Scoreboard :=
  ranking.foldl (scoreStep (ranking.length : Int)) sb

/-- Body of the fallback loop of `revert_last_run` (scoreboard.py lines
65-81): subtract the points of the last run, floored at zero, dropping an
entry that returns to all-zero. -/
def revertScoreStep (total : Int) (sb : Scoreboard) (f : RankEntry) : Scoreboard :=
  let username := trimName f
  if username = "" then sb
  else
    let pa := points_awarded total f.order
    let entry := (getKey sb username).getD ⟨0, 0⟩
    let entry' : ScoreEntry := ⟨max 0 (entry.points - pa), max 0 (entry.runs - 1)⟩
    if entry'.points = 0 ∧ entry'.runs = 0 then popKey sb username
    else setKey sb username entry'

/-- The analytic scoreboard subtraction of `revert_last_run`
(scoreboard.py lines 63-83). -/
def revertScoreboard (ranking : List RankEntry) (sb : Scoreboard) : Scoreboard :=
  ranking.foldl (revertScoreStep (ranking.length : Int)) sb

/-! ### stats.py: `update_stats_with_battle` / `revert_stats_with_battle` -/

/-- Body of the ranking loop of `update_stats_with_battle` (stats.py
lines 19-31): bump matches, wins for order 1, stamp `last_played`. -/
def statsRankStep (now_ts : Int) (stats : Stats) (f : RankEntry) : Stats :=
  let username := trimName f
  if username = "" then stats
  else
    let entry := (getKey stats username).getD defaultStats
    let entry := { entry with
      matches' := entry.matches' + 1,
      wins := entry.wins + (if f.order = 1 then 1 else 0),
      last_played := now_ts }
    setKey stats username entry

/-- Body of the damage-log loop of `update_stats_with_battle` (stats.py
lines 33-46): accumulate the attacker's totals and `damage_to` map.  Note
the attacker key is used verbatim, with no emptiness check. -/
def statsDmgStep (stats : Stats) (att : String × List (String × DmgInfo)) : Stats :=
  let entry0 := (getKey stats att.1).getD defaultStats
  let entry1 := att.2.foldl (fun entry d =>
    let dmg := d.2.damage
    let hits := d.2.hits
    let prev := (getKey entry.damage_to d.1).getD ⟨0, 0⟩
    { entry with
      total_damage_dealt := entry.total_damage_dealt + dmg,
      total_hits := entry.total_hits + hits,
      damage_to := setKey entry.damage_to d.1 ⟨prev.damage + dmg, prev.hits + hits⟩ }) entry0
  setKey stats att.1 entry1

/-- Python `max(dmg_to.items(), key=lambda kv: kv[1].get("damage", 0.0))`:
the first item attaining the maximal damage (Python `max` keeps the
earliest maximum). Returns `""` on the empty list, where the source
guards against calling it. -/
def argmaxDamage : List (String × DmgInfo) → String
  | [] => ""
  | h :: t => (t.foldl (fun best kv => if best.2.damage < kv.2.damage then kv else best) h).1

/-- The trailing `biggest_rival` recomputation applied to one entry
(stats.py lines 48-55 and 99-106). -/
def recomputeRival (e : StatsEntry) : StatsEntry :=
  if e.damage_to = [] then { e with biggest_rival := "" }
  else { e with biggest_rival := argmaxDamage e.damage_to }

/-- The `for username, entry in stats.items()` recomputation loop. -/
def recomputeRivals (stats : Stats) : Stats :=
  stats.map (fun p => (p.1, recomputeRival p.2))

/-- Model of `update_stats_with_battle` (stats.py lines 10-58) on the Stats
document; `now_ts` stands for `int(time.time())`. -/
def update_stats_with_battle (ranking : List RankEntry) (damage_log : DamageLog)
    (now_ts : Int) (stats : Stats) : Stats :=
  recomputeRivals (damage_log.foldl statsDmgStep (ranking.foldl (statsRankStep now_ts) stats))

/-- Body of the ranking loop of `revert_stats_with_battle` (stats.py
lines 69-77): usernames not already present are skipped. -/
def revertStatsRankStep (stats : Stats) (f : RankEntry) : Stats :=
  let username := trimName f
  if username = "" ∨ getKey stats username = none then stats
  else
    let entry := (getKey stats username).getD defaultStats
    let entry := { entry with
      matches' := max 0 (entry.matches' - 1),
      wins := if f.order = 1 then max 0 (entry.wins - 1) else entry.wins }
    setKey stats username entry

/-- Body of the damage-log loop of `revert_stats_with_battle` (stats.py
lines 79-97): subtract floored at zero, dropping exhausted `damage_to`
entries; attackers not in the stats are skipped. -/
def revertStatsDmgStep (stats : Stats) (att : String × List (String × DmgInfo)) : Stats :=
  if getKey stats att.1 = none then stats
  else
    let entry0 := (getKey stats att.1).getD defaultStats
    let entry1 := att.2.foldl (fun entry d =>
      let dmg := d.2.damage
      let hits := d.2.hits
      let prev := (getKey entry.damage_to d.1).getD ⟨0, 0⟩
      let prev' : DmgInfo := ⟨max 0 (prev.damage - dmg), max 0 (prev.hits - hits)⟩
      { entry with
        total_damage_dealt := max 0 (entry.total_damage_dealt - dmg),
        total_hits := max 0 (entry.total_hits - hits),
        damage_to :=
          if prev'.damage = 0 ∧ prev'.hits = 0 then popKey entry.damage_to d.1
          else setKey entry.damage_to d.1 prev' }) entry0
    setKey stats att.1 entry1

/-- Model of `revert_stats_with_battle` (stats.py lines 61-109). -/
def revert_stats_with_battle (ranking : List RankEntry) (damage_log : DamageLog)
    (stats : Stats) : Stats :=
  recomputeRivals (damage_log.foldl revertStatsDmgStep (ranking.foldl revertStatsRankStep stats))

/-! ### video_battle.py: fighters and the physics arena

A `Sprite` carries the simulation fields of video_battle.py's `Sprite`
dataclass; the two `PIL` image fields, which never influence the
simulation, are dropped.  The `id` field models Python object identity
(`id(sprite)`), used for the collision-memory key; sprites created by
`_create_sprites` are distinct objects, modelled by giving them their
position in the creation order. -/

structure Sprite where
  id : Nat
  username : String
  x : ℚ
  y : ℚ
  vx : ℚ
  vy : ℚ
  health : ℚ := 100
  alive : Bool := true
  death_frame : Option Int := none
  last_hit_frame : Int := -999
  deriving DecidableEq, Repr

instance : Inhabited Sprite := ⟨{ id := 0, username := "", x := 0, y := 0, vx := 0, vy := 0 }⟩

/-- The configuration and per-run geometry of `VideoFightSimulator`:
`BattleConfig` fields together with the instance fields set up by
`__init__` / `_set_sprite_geometry`.  All Python floats are exact
rationals here. -/
structure SimEnv where
  width : ℚ := 1080
  arena_top : ℚ
  arena_bottom : ℚ
  restitution : ℚ := 17/20
  collision_cooldown_frames : Int := 6
  min_damage : Int := 5
  max_damage : Int := 14
  early_damage_scale : ℚ := 1/2
  late_damage_scale : ℚ := 1
  starting_fighters : Nat := 0
  sprite_min_size : ℚ := 128
  sprite_max_size : ℚ := 128
  deriving Repr

/-- Python `int(q)`: truncation toward zero. -/
def pyInt (q : ℚ) : Int := if 0 ≤ q then ⌊q⌋ else -⌊-q⌋

/-- Python `round(q)`: round half to even. -/
def pyRound (q : ℚ) : Int :=
  let f := ⌊q⌋
  let r := q - f
  if r < 1/2 then f
  else if 1/2 < r then f + 1
  else if f % 2 = 0 then f else f + 1

/-- Floor integer square root by bounded binary search on `[lo, hi)`
(`Nat.sqrt` is defined by well-founded recursion, which the kernel
cannot evaluate; `128` halvings cover every argument below `2 ^ 127`). -/
def natSqrtBin (n : Nat) : Nat → Nat → Nat → Nat
  | 0, lo, _ => lo
  | fuel + 1, lo, hi =>
    if hi ≤ lo + 1 then lo
    else
      let mid := (lo + hi) / 2
      if mid * mid ≤ n then natSqrtBin n fuel mid hi else natSqrtBin n fuel lo mid

def natSqrt (n : Nat) : Nat := natSqrtBin n 128 0 (n + 1)

def intSqrt : Int → Int
  | .ofNat n => .ofNat (natSqrt n)
  | .negSucc _ => 0

/-- Componentwise floor square root of a rational, as in `Rat.sqrt`. -/
def ratSqrt (q : ℚ) : ℚ := mkRat (intSqrt q.num) (natSqrt q.den)

/-- Python `math.hypot(dx, dy)`, modelled as the rational square root of the
exact squared norm; exact whenever the squared norm is a perfect rational
square (true of every concrete state in this file). -/
def hypotQ (dx dy : ℚ) : ℚ := ratSqrt (dx * dx + dy * dy)

/-- Model of `_clamp_sprite` (video_battle.py lines 239-251): four sequential
wall checks that reflect the velocity. -/
def clamp_sprite (env : SimEnv) (size : ℚ) (s : Sprite) : Sprite :=
  let s := if s.x < 0 then { s with x := 0, vx := |s.vx| } else s
  let s := if env.width < s.x + size then { s with x := env.width - size, vx := -|s.vx| } else s
  let s := if s.y < env.arena_top then { s with y := env.arena_top, vy := |s.vy| } else s
  let s := if env.arena_bottom < s.y + size then
             { s with y := env.arena_bottom - size, vy := -|s.vy| } else s
  s

/-- Model of `_collides` (video_battle.py lines 253-260): squared center distance
below one diameter squared. -/
def collides (size : ℚ) (a b : Sprite) : Bool :=
  let r := size / 2
  let dx := (a.x + r) - (b.x + r)
  let dy := (a.y + r) - (b.y + r)
  decide (dx * dx + dy * dy < size * size)

/-- Model of `_resolve_collision` (video_battle.py lines 262-291): separate the
pair by half the overlap each along the center normal, then apply a
restitution impulse when the pair is approaching; the boundary clamp runs
only on the impulse path, exactly as in the source (the `closing_speed >=
0` branch returns before clamping). -/
def resolve_collision (env : SimEnv) (size : ℚ) (a b : Sprite) : Sprite × Sprite :=
  let r := size / 2
  let dx := (a.x + r) - (b.x + r)
  let dy := (a.y + r) - (b.y + r)
  let dist0 := hypotQ dx dy
  let dist := if dist0 = 0 then 1 / 1000000 else dist0
  let min_dist := size
  if min_dist ≤ dist then (a, b)
  else
    let overlap := (min_dist - dist) / 2
    let nx := dx / dist
    let ny := dy / dist
    let a := { a with x := a.x + nx * overlap, y := a.y + ny * overlap }
    let b := { b with x := b.x - nx * overlap, y := b.y - ny * overlap }
    let rel_vx := a.vx - b.vx
    let rel_vy := a.vy - b.vy
    let closing_speed := rel_vx * nx + rel_vy * ny
    if 0 ≤ closing_speed then (a, b)
    else
      let impulse := -(1 + env.restitution) * closing_speed / 2
      let a := { a with vx := a.vx + impulse * nx, vy := a.vy + impulse * ny }
      let b := { b with vx := b.vx - impulse * nx, vy := b.vy - impulse * ny }
      (clamp_sprite env size a, clamp_sprite env size b)

/-- Model of `_speed_bounds` (video_battle.py lines 209-221). -/
def speed_bounds (size : ℚ) (alive_count : Nat) : ℚ × ℚ :=
  let base_floor := max 3 ((1/20) * size)
  let boost : ℚ :=
    if alive_count ≤ 2 then 9/2
    else if alive_count ≤ 3 then 7/2
    else if alive_count ≤ 5 then 2
    else 0
  let min_speed := base_floor + boost
  let max_speed := max (min_speed + 3) (min_speed * (7/5))
  (min_speed, max_speed)

/-- Model of `_enforce_speed_bounds` (video_battle.py lines 223-237).  The random
unit direction drawn when the speed is almost zero is supplied by the
oracle `dir` (standing for `(cos angle, sin angle)`); the returned flag
says whether the oracle value was consumed. -/
def enforce_speed_bounds (min_speed max_speed : ℚ) (dir : ℚ × ℚ) (s : Sprite) :
    Sprite × Bool :=
  let speed := hypotQ s.vx s.vy
  if speed < 1/100000 then
    ({ s with vx := dir.1 * min_speed, vy := dir.2 * min_speed }, true)
  else if speed < min_speed then
    let scale := min_speed / speed
    ({ s with vx := s.vx * scale, vy := s.vy * scale }, false)
  else if max_speed < speed then
    let scale := max_speed / speed
    ({ s with vx := s.vx * scale, vy := s.vy * scale }, false)
  else (s, false)

/-- Model of `_move_sprites` (video_battle.py lines 177-185): alive sprites are
speed-bounded, integrated and clamped; returns the unconsumed oracle
directions. -/
def move_sprites (env : SimEnv) (size : ℚ) (alive_count : Nat) :
    List (ℚ × ℚ) → List Sprite → List Sprite × List (ℚ × ℚ)
  | dirs, [] => ([], dirs)
  | dirs, s :: rest =>
    if s.alive then
      let bounds := speed_bounds size alive_count
      let (s1, used) := enforce_speed_bounds bounds.1 bounds.2 (dirs.headD (1, 0)) s
      let dirs1 := if used then dirs.tail else dirs
      let s2 := { s1 with x := s1.x + s1.vx, y := s1.y + s1.vy }
      let s3 := clamp_sprite env size s2
      let (rest', dirs') := move_sprites env size alive_count dirs1 rest
      (s3 :: rest', dirs')
    else
      let (rest', dirs') := move_sprites env size alive_count dirs rest
      (s :: rest', dirs')

/-- Model of `_damage_scale` (video_battle.py lines 294-298). -/
def damage_scale (env : SimEnv) (alive_count : Nat) : ℚ :=
  let ratio := max 0 (min 1 ((alive_count : ℚ) / (max 1 env.starting_fighters : Nat)))
  env.early_damage_scale + (1 - ratio) * (env.late_damage_scale - env.early_damage_scale)

/-- Model of `_record_damage` (video_battle.py lines 737-742): falsy (empty)
usernames are skipped; otherwise the nested `setdefault` accumulation. -/
def record_damage (dl : DamageLog) (attacker defender : String) (amount : ℚ) : DamageLog :=
  if attacker = "" ∨ defender = "" then dl
  else
    let inner := (getKey dl attacker).getD []
    let info := (getKey inner defender).getD ⟨0, 0⟩
    setKey dl attacker (setKey inner defender ⟨info.damage + amount, info.hits + 1⟩)

/-- Model of `_apply_damage` (video_battle.py lines 300-320).  The two
`random.randint(min_damage, max_damage)` draws are taken from the `rng`
oracle stream (defaulting to `min_damage` if the stream is exhausted,
which no theorem below relies on). -/
def apply_damage (env : SimEnv) (dlog : DamageLog) (rng : List Int) (a b : Sprite)
    (frame_idx : Int) (alive_count : Nat) :
    Sprite × Sprite × DamageLog × List Int :=
  let scale := damage_scale env alive_count
  let damage_a_base := rng.headD env.min_damage
  let rng := rng.tail
  let damage_b_base := rng.headD env.min_damage
  let rng := rng.tail
  let damage_a : Int := max 1 (pyRound ((damage_a_base : ℚ) * scale))
  let damage_b : Int := max 1 (pyRound ((damage_b_base : ℚ) * scale))
  let a := { a with health := max 0 (a.health - (damage_b : ℚ)), last_hit_frame := frame_idx }
  let b := { b with health := max 0 (b.health - (damage_a : ℚ)), last_hit_frame := frame_idx }
  let dlog := record_damage dlog b.username a.username (damage_b : ℚ)
  let dlog := record_damage dlog a.username b.username (damage_a : ℚ)
  let a := if a.health ≤ 0 ∧ a.alive then { a with alive := false, death_frame := some frame_idx } else a
  let b := if b.health ≤ 0 ∧ b.alive then { b with alive := false, death_frame := some frame_idx } else b
  (a, b, dlog, rng)

/-- The mutable state threaded through one simulation step: the sprite
list, the current sprite size, the collision-cooldown memory of
`_simulate_frames`, the run's damage log, and the two randomness
oracles. -/
structure StepState where
  sprites : List Sprite
  size : ℚ
  mem : List ((Nat × Nat) × Int)
  damage_log : DamageLog
  rng : List Int
  dirs : List (ℚ × ℚ)
  deriving Repr

/-- Python `sprites[i]` (indices produced by `enumerate`, always in range where
used). -/
def getIdx (l : List Sprite) (i : Nat) : Sprite := l.getD i default

/-- Ordered pairs `(i, j)` with `i` before `j`, as produced by the nested
`for i ... for j in range(i+1, ...)` loops. -/
def pairsOf : List Nat → List (Nat × Nat)
  | [] => []
  | x :: xs => xs.map (fun y => (x, y)) ++ pairsOf xs

/-- Model of `_apply_collisions` (video_battle.py lines 187-205): iterate over
pairs of the indices alive at the start of the pass, re-reading the
current sprites; on contact resolve, and deal damage only outside the
cooldown window, clearing the pair's memory whenever the pair is not in
contact. -/
def apply_collisions (env : SimEnv) (frame_idx : Int) (st : StepState) : StepState :=
  let alive_indices := (List.range st.sprites.length).filter (fun i => (getIdx st.sprites i).alive)
  let total_alive := alive_indices.length
  (pairsOf alive_indices).foldl (fun st p =>
    let a := getIdx st.sprites p.1
    let b := getIdx st.sprites p.2
    if ¬ (a.alive ∧ b.alive) then st
    else
      let key := (min a.id b.id, max a.id b.id)
      if ¬ collides st.size a b then { st with mem := popKey st.mem key }
      else
        let ab := resolve_collision env st.size a b
        let last := (getKey st.mem key).getD (-999)
        if env.collision_cooldown_frames ≤ frame_idx - last then
          let res := apply_damage env st.damage_log st.rng ab.1 ab.2 frame_idx total_alive
          { st with
            sprites := (st.sprites.set p.1 res.1).set p.2 res.2.1,
            mem := setKey st.mem key frame_idx,
            damage_log := res.2.2.1,
            rng := res.2.2.2 }
        else
          { st with sprites := (st.sprites.set p.1 ab.1).set p.2 ab.2 }) st

/-- Model of `_current_size_for_alive` (video_battle.py lines 696-699). -/
def current_size_for_alive (env : SimEnv) (alive_count : Nat) : ℚ :=
  let ratio := max 0 (min 1 ((alive_count : ℚ) / (max 1 env.starting_fighters : Nat)))
  let span := max 0 (env.sprite_max_size - env.sprite_min_size)
  (pyInt (env.sprite_min_size + (1 - ratio) * span) : ℚ)

/-- Model of `_update_sprite_size` (video_battle.py lines 728-735); the avatar
rescaling touches only the dropped image fields. -/
def update_sprite_size (env : SimEnv) (size : ℚ) (alive_count : Nat) : ℚ :=
  let target := current_size_for_alive env alive_count
  if target = size then size else target

/-- One iteration of the `while True` loop of `_simulate_frames`
(video_battle.py lines 120-140), restricted to the state that influences
the simulation (rendering dropped): recount alive, rescale, move, then
resolve collisions and damage. -/
def simStep (env : SimEnv) (frame_idx : Int) (st : StepState) : StepState :=
  let alive_count := (st.sprites.filter (fun s => s.alive)).length
  let size := update_sprite_size env st.size alive_count
  let mv := move_sprites env size alive_count st.dirs st.sprites
  apply_collisions env frame_idx
    { st with sprites := mv.1, size := size, dirs := mv.2 }

/-! ### `_build_ranking` (video_battle.py lines 630-655) -/

/-- Lines 632-636: when more than one fighter is still alive at
termination, survivors are ordered by ascending remaining health
(Python `sorted` is a stable sort, modelled by the stable
`List.insertionSort`) and stamped with synthetic death frames
`total_frames + idx`.  The index of a survivor in the sorted list is
recovered through its object identity `id`. -/
def assignSurvivorFrames (sprites : List Sprite) (total_frames : Int) : List Sprite :=
  let alive := sprites.filter (fun s => s.alive)
  if 1 < alive.length then
    let alive_sorted := alive.insertionSort (fun a b => a.health ≤ b.health)
    sprites.map (fun s =>
      if s.alive then
        let idx : Int := alive_sorted.findIdx (fun t => t.id == s.id)
        { s with death_frame := some (total_frames + idx) }
      else s)
  else sprites

/-- Line 638: `max(s.death_frame if s.death_frame is not None else -1
for s in sprites)`.  Python `max` raises on an empty roster — a state the
engine never reaches, since `run` rejects empty rosters; the `[]` case
returns `-1` for totality. -/
def maxDeathFrame : List Sprite → Int
  | [] => -1
  | s :: rest => rest.foldl (fun m t => max m (t.death_frame.getD (-1))) (s.death_frame.getD (-1))

/-- Lines 639-642: give each sprite without a death frame the next frame
after the running maximum. -/
def assignMissing : Int → List Sprite → List Sprite
  | _, [] => []
  | maxf, s :: rest =>
    match s.death_frame with
    | none => { s with death_frame := some (maxf + 1) } :: assignMissing (maxf + 1) rest
    | some _ => s :: assignMissing maxf rest

/-- Lines 645-654: `for order, sprite in enumerate(sorted_sprites,
start=1)` building the ranking entries.  The `profile_pic` path in the
produced dict is a pure rendering artifact and is dropped from
`RankEntry`. -/
def annotateRanking : Int → List Sprite → List RankEntry
  | _, [] => []
  | order, s :: rest =>
    { username := some s.username, order := order, final_health := max 0 s.health }
      :: annotateRanking (order + 1) rest

/-- Model of `_build_ranking` (video_battle.py lines 630-655).  The stable
descending sort `sorted(..., key=..., reverse=True)` is modelled by the
stable `List.insertionSort` on the flipped key comparison.  At this
point every sprite has `death_frame` set; `getD 0` totalizes the sort
key (Python would raise comparing `None`). -/
def build_ranking (sprites : List Sprite) (total_frames : Int) : List RankEntry :=
  let sprites1 := assignSurvivorFrames sprites total_frames
  let maxf := maxDeathFrame sprites1
  let sprites2 := assignMissing maxf sprites1
  let sorted_sprites :=
    sprites2.insertionSort (fun a b => b.death_frame.getD 0 ≤ a.death_frame.getD 0)
  annotateRanking 1 sorted_sprites

/-! ### The persistent store, `run` and `revert_last_run`

The file-backed JSON documents are modelled as a record of values; a
missing or unparseable file is identified with the `load_json` default
(`{}` / `[]` / `None`), exactly the substitution `storage.load_json`
performs.  The battle video directory is the list of file names in
creation (= glob-sorted) order. -/

structure Store where
  scoreboard : Scoreboard := []
  stats : Stats := []
  last_run : Option (List RankEntry) := none
  last_run_damage : Option DamageLog := none
  board_backup : Option Scoreboard := none
  stats_backup : Option Stats := none
  battles : List String := []
  deriving DecidableEq, Repr

/-- Model of `_backup_run_state` (video_battle.py lines 705-715), on the success
path of its `try`: snapshot the current scoreboard and stats documents.
(The `except` path — a filesystem failure — only degrades revert
fidelity and is outside this model.) -/
def backup_run_state (s : Store) : Store :=
  { s with board_backup := some s.scoreboard, stats_backup := some s.stats }

/-- Model of `VideoFightSimulator.run` (video_battle.py lines 88-110).  The
physics simulation is randomized by design; `finalSprites` stands for the
sprite states when `_simulate_frames` terminates (the loop mutates the
sprites created by `_create_sprites` in place and never adds or removes
one, so its length equals `min(len(followers), max_fighters)`) and
`damage_log` for the accumulated damage log.  `battle_name` is the video
file written by `_write_video` before the ranking is built. -/
def run (followers : List String) (finalSprites : List Sprite) (damage_log : DamageLog)
    (now_ts : Int) (total_frames : Int) (battle_name : String) (s : Store) :
    Except String (Store × List RankEntry) :=
  if followers = [] then .error "No followers provided for the fight."
  else
    let s := { s with battles := s.battles ++ [battle_name] }
    let ranking := build_ranking finalSprites total_frames
    let s := backup_run_state s
    let s := { s with scoreboard := update_scoreboard ranking s.scoreboard }
    let s := { s with stats := update_stats_with_battle ranking damage_log now_ts s.stats }
    let s := { s with last_run_damage := some damage_log }
    let s := { s with last_run := some ranking }
    .ok (s, ranking)

/-- Model of `revert_last_run` (scoreboard.py lines 39-102).  `SystemExit` is the
`Except.error` case; restoring from the backups is preferred, with the
analytic subtraction as the fallback, then the newest battle video and
the four run artifacts are deleted. -/
def revert_last_run (s : Store) : Except String Store :=
  match s.last_run with
  | none => .error "No last run data found. Run a battle first."
  | some ranking =>
    if ranking = [] then .error "Last run data is empty; nothing to revert."
    else
      let restored1 :=
        match s.board_backup with
        | some b => ({ s with scoreboard := b }, true)
        | none => (s, false)
      let restored2 :=
        match restored1.1.stats_backup with
        | some b => ({ restored1.1 with stats := b }, true)
        | none => (restored1.1, restored1.2)
      let s2 := restored2.1
      let s3 :=
        if restored2.2 then s2
        else
          let s2 := { s2 with scoreboard := revertScoreboard ranking s2.scoreboard }
          let damage_log := s2.last_run_damage.getD []
          if damage_log = [] then s2
          else { s2 with stats := revert_stats_with_battle ranking damage_log s2.stats }
      let s4 := { s3 with battles := s3.battles.dropLast }
      .ok { s4 with last_run := none, last_run_damage := none,
                    board_backup := none, stats_backup := none }

/-! ### Per-pair projection of the collision cooldown -/

/-- The cooldown bookkeeping of `_apply_collisions` (video_battle.py
lines 196-205), projected onto one fixed pair of fighters: `contact`
lists, frame by frame starting at `frame`, whether `_collides` holds for
the pair; `mem` is the pair's slot in `collision_memory`.  Returns the
frames at which the pair produces a damage event.  Note that a frame
without contact erases the memory (`collision_memory.pop`). -/
def pairDamageFrames (cooldown : Int) : Nat → Option Nat → List Bool → List Nat
  | _, _, [] => []
  | frame, mem, c :: rest =>
    if c then
      let last : Int := match mem with | some l => (l : Int) | none => -999
      if cooldown ≤ (frame : Int) - last then
        frame :: pairDamageFrames cooldown (frame + 1) (some frame) rest
      else pairDamageFrames cooldown (frame + 1) mem rest
    else pairDamageFrames cooldown (frame + 1) none rest

/-! ## C9: the `biggest_rival` invariant -/

/-- The invariant claimed for each stats entry: `biggest_rival` names an
opponent with maximal cumulative damage in `damage_to`, or the empty
string when `damage_to` is empty. -/
def rivalOK (e : StatsEntry) : Prop :=
  (e.damage_to = [] → e.biggest_rival = "") ∧
  (e.damage_to ≠ [] → ∃ d, (e.biggest_rival, d) ∈ e.damage_to ∧
    ∀ q ∈ e.damage_to, q.2.damage ≤ d.damage)

/-- Concrete mid-arena configuration for the C8 witness. -/
def resolveWitnessEnv : SimEnv := { arena_top := 300, arena_bottom := 900 }

def resolveWitnessA : Sprite := { id := 0, username := "a", x := 300, y := 500, vx := 10, vy := 0 }

def resolveWitnessB : Sprite := { id := 1, username := "b", x := 390, y := 500, vx := -10, vy := 0 }

/-! ## Theorems -/

theorem getKey_setKey_self {κ α : Type} [DecidableEq κ] (m : List (κ × α)) (k : κ) (v : α) :
    getKey (setKey m k v) k = some v := by
  induction m with
  | nil => simp [getKey, setKey]
  | cons p rest ih =>
    by_cases h : p.1 = k
    · simp [getKey, setKey, h]
    · simp [getKey, setKey, h, ih]

theorem getKey_setKey_ne {κ α : Type} [DecidableEq κ] (m : List (κ × α)) (k u : κ) (v : α)
    (h : u ≠ k) : getKey (setKey m k v) u = getKey m u := by
  have hku : ¬ k = u := fun hh => h hh.symm
  induction m with
  | nil => simp [getKey, setKey, hku]
  | cons p rest ih =>
    by_cases hp : p.1 = k
    · simp [getKey, setKey, hp, hku]
    · by_cases hu : p.1 = u
      · simp [getKey, setKey, hp, hu, h]
      · simp [getKey, setKey, hp, hu, ih]

theorem mem_setKey {κ α : Type} [DecidableEq κ] (m : List (κ × α)) (k : κ) (v : α) :
    ∀ p ∈ setKey m k v, p.1 = k ∨ p ∈ m := by
  induction m with
  | nil => intro p hp; simp [setKey] at hp; simp [hp]
  | cons q rest ih =>
    intro p hp
    by_cases hq : q.1 = k
    · simp [setKey, hq] at hp
      rcases hp with hp | hp
      · simp [hp]
      · right; exact List.mem_cons_of_mem _ hp
    · simp only [setKey, if_neg hq, List.mem_cons] at hp
      rcases hp with hp | hp
      · right; simp [hp]
      · rcases ih p hp with h | h
        · exact Or.inl h
        · exact Or.inr (List.mem_cons_of_mem _ h)

theorem intSqrt_nonneg (z : Int) : 0 ≤ intSqrt z := by
  cases z with
  | ofNat n => exact Int.ofNat_nonneg _
  | negSucc n => exact le_refl 0

theorem ratSqrt_nonneg (q : ℚ) : 0 ≤ ratSqrt q :=
  Rat.mkRat_nonneg (intSqrt_nonneg _) _

/-! ## Helper lemmas -/

theorem annotateRanking_length (l : List Sprite) : ∀ k, (annotateRanking k l).length = l.length := by
  induction l with
  | nil => intro k; rfl
  | cons s rest ih => intro k; simpa [annotateRanking] using ih (k + 1)

theorem intRange_succ (k : Int) (n : Nat) :
    (List.range (n + 1)).map (fun (i : Nat) => k + (i : Int))
      = k :: (List.range n).map (fun (i : Nat) => (k + 1) + (i : Int)) := by
  rw [List.range_succ_eq_map, List.map_cons, List.map_map]
  refine List.cons_eq_cons.mpr ⟨by simp, ?_⟩
  apply List.map_congr_left
  intro i _
  simp only [Function.comp_apply, Nat.succ_eq_add_one]
  push_cast
  ring

theorem annotateRanking_orders (l : List Sprite) :
    ∀ k : Int, (annotateRanking k l).map (fun e => e.order)
      = (List.range l.length).map (fun (i : Nat) => k + (i : Int)) := by
  induction l with
  | nil => intro k; rfl
  | cons s rest ih =>
    intro k
    rw [List.length_cons, intRange_succ]
    simp only [annotateRanking, List.map_cons]
    rw [ih (k + 1)]

theorem annotateRanking_usernames (l : List Sprite) :
    ∀ k, (annotateRanking k l).map (fun e => e.username)
      = l.map (fun s => some s.username) := by
  induction l with
  | nil => intro k; rfl
  | cons s rest ih => intro k; simpa [annotateRanking] using ih (k + 1)

theorem annotateRanking_health_nonneg (l : List Sprite) :
    ∀ k, ∀ e ∈ annotateRanking k l, 0 ≤ e.final_health := by
  induction l with
  | nil => intro k e he; simp [annotateRanking] at he
  | cons s rest ih =>
    intro k e he
    simp only [annotateRanking, List.mem_cons] at he
    rcases he with he | he
    · subst he; exact le_max_left 0 s.health
    · exact ih (k + 1) e he

theorem assignMissing_usernames (l : List Sprite) :
    ∀ m, (assignMissing m l).map (fun s => s.username) = l.map (fun s => s.username) := by
  induction l with
  | nil => intro m; rfl
  | cons s rest ih =>
    intro m
    cases h : s.death_frame <;> simp [assignMissing, h, ih]

theorem assignMissing_length (l : List Sprite) :
    ∀ m, (assignMissing m l).length = l.length := by
  induction l with
  | nil => intro m; rfl
  | cons s rest ih =>
    intro m
    cases h : s.death_frame <;> simp [assignMissing, h, ih]

theorem assignSurvivorFrames_usernames (sp : List Sprite) (tf : Int) :
    (assignSurvivorFrames sp tf).map (fun s => s.username) = sp.map (fun s => s.username) := by
  unfold assignSurvivorFrames
  by_cases h : 1 < (sp.filter (fun s => s.alive)).length
  · simp only [if_pos h, List.map_map]
    apply List.map_congr_left
    intro s _
    by_cases hs : s.alive <;> simp [hs]
  · simp [if_neg h]

theorem assignSurvivorFrames_length (sp : List Sprite) (tf : Int) :
    (assignSurvivorFrames sp tf).length = sp.length := by
  unfold assignSurvivorFrames
  by_cases h : 1 < (sp.filter (fun s => s.alive)).length
  · simp [if_pos h]
  · simp [if_neg h]

theorem build_ranking_length (sprites : List Sprite) (tf : Int) :
    (build_ranking sprites tf).length = sprites.length := by
  unfold build_ranking
  rw [annotateRanking_length, List.length_insertionSort, assignMissing_length,
    assignSurvivorFrames_length]

theorem build_ranking_usernames_perm (sprites : List Sprite) (tf : Int) :
    ((build_ranking sprites tf).map (fun e => e.username)).Perm
      (sprites.map (fun s => some s.username)) := by
  unfold build_ranking
  rw [annotateRanking_usernames]
  have h1 := List.perm_insertionSort
    (fun a b => b.death_frame.getD 0 ≤ a.death_frame.getD 0)
    (assignMissing (maxDeathFrame (assignSurvivorFrames sprites tf)) (assignSurvivorFrames sprites tf))
  have h2 := h1.map (fun s : Sprite => some s.username)
  have h3 : (assignMissing (maxDeathFrame (assignSurvivorFrames sprites tf))
      (assignSurvivorFrames sprites tf)).map (fun s : Sprite => some s.username)
      = sprites.map (fun s => some s.username) := by
    have hh := assignMissing_usernames (assignSurvivorFrames sprites tf)
      (maxDeathFrame (assignSurvivorFrames sprites tf))
    have hh2 := assignSurvivorFrames_usernames sprites tf
    calc (assignMissing _ _).map (fun s : Sprite => some s.username)
        = ((assignMissing _ _).map (fun s : Sprite => s.username)).map some := by
          rw [List.map_map]; rfl
      _ = ((assignSurvivorFrames sprites tf).map (fun s : Sprite => s.username)).map some := by rw [hh]
      _ = (sprites.map (fun s : Sprite => s.username)).map some := by rw [hh2]
      _ = sprites.map (fun s => some s.username) := by rw [List.map_map]; rfl
  rw [h3] at h2
  exact h2

/-! ## Claims -/

/-- C3: for every completed run over a roster of `N` participants, the
ranking built by `_build_ranking` has exactly `N` entries, one per
sprite (the usernames are a permutation of the roster's), and the
assigned orders are exactly `1, 2, ..., N` in this sequence, each
exactly once. -/
theorem C3_ranking_is_permutation_with_orders (sprites : List Sprite) (total_frames : Int) :
    (build_ranking sprites total_frames).length = sprites.length ∧
    (build_ranking sprites total_frames).map (fun e => e.order)
      = (List.range sprites.length).map (fun (i : Nat) => (i : Int) + 1) ∧
    ((build_ranking sprites total_frames).map (fun e => e.username)).Perm
      (sprites.map (fun s => some s.username)) := by
  refine ⟨build_ranking_length sprites total_frames, ?_, build_ranking_usernames_perm sprites total_frames⟩
  unfold build_ranking
  rw [annotateRanking_orders, List.length_insertionSort, assignMissing_length,
    assignSurvivorFrames_length]
  apply List.map_congr_left
  intro i _
  ring

/-- C4: every entry of the ranking produced at the end of a run records
a final health clamped non-negative (`max(0.0, sprite.health)`), for
every sprite state the simulation can hand over. -/
theorem C4_final_health_nonneg (sprites : List Sprite) (total_frames : Int)
    (e : RankEntry) (he : e ∈ build_ranking sprites total_frames) :
    0 ≤ e.final_health := by
  unfold build_ranking at he
  exact annotateRanking_health_nonneg _ 1 e he

/-- Witness for C4 at a concrete one-sprite roster. -/
theorem C4_final_health_nonneg_witness :
    0 ≤ ({ username := some "a", order := 1, final_health := 100 } : RankEntry).final_health :=
  C4_final_health_nonneg
    [{ id := 0, username := "a", x := 0, y := 0, vx := 0, vy := 0 }] 0
    { username := some "a", order := 1, final_health := 100 } (by decide)

/-! ## C2: the point formula of `update_scoreboard` -/

theorem scoreStep_getKey_other (t : Int) (sb : Scoreboard) (f : RankEntry) (u : String)
    (h : trimName f ≠ u) : getKey (scoreStep t sb f) u = getKey sb u := by
  unfold scoreStep
  by_cases he : trimName f = ""
  · simp [he]
  · simp only [if_neg he]
    exact getKey_setKey_ne _ _ _ _ (fun hh => h hh.symm)

theorem foldl_scoreStep_other (l : List RankEntry) (t : Int) (u : String) :
    ∀ sb, (∀ f ∈ l, trimName f ≠ u) →
      getKey (l.foldl (scoreStep t) sb) u = getKey sb u := by
  induction l with
  | nil => intro sb _; rfl
  | cons g rest ih =>
    intro sb h
    have hg : trimName g ≠ u := h g (List.mem_cons_self g rest)
    have hrest : ∀ f ∈ rest, trimName f ≠ u := fun f hf => h f (List.mem_cons_of_mem _ hf)
    calc getKey ((g :: rest).foldl (scoreStep t) sb) u
        = getKey (rest.foldl (scoreStep t) (scoreStep t sb g)) u := rfl
      _ = getKey (scoreStep t sb g) u := ih _ hrest
      _ = getKey sb u := scoreStep_getKey_other t sb g u hg

theorem scoreStep_getKey_self (t : Int) (sb : Scoreboard) (f : RankEntry)
    (h : trimName f ≠ "") :
    getKey (scoreStep t sb f) (trimName f) =
      some ⟨((getKey sb (trimName f)).getD ⟨0, 0⟩).points + points_awarded t f.order,
            ((getKey sb (trimName f)).getD ⟨0, 0⟩).runs + 1⟩ := by
  unfold scoreStep
  simp only [if_neg h]
  exact getKey_setKey_self _ _ _

theorem foldl_scoreStep_delta (l : List RankEntry) (t : Int) :
    ∀ sb f, f ∈ l → (l.map trimName).Nodup → trimName f ≠ "" →
      getKey (l.foldl (scoreStep t) sb) (trimName f) =
        some ⟨((getKey sb (trimName f)).getD ⟨0, 0⟩).points + points_awarded t f.order,
              ((getKey sb (trimName f)).getD ⟨0, 0⟩).runs + 1⟩ := by
  induction l with
  | nil => intro sb f hf; exact absurd hf (List.not_mem_nil f)
  | cons g rest ih =>
    intro sb f hf hnd hne
    have hnd' := hnd
    rw [List.map_cons, List.nodup_cons] at hnd'
    obtain ⟨hgout, hndrest⟩ := hnd'
    rcases List.mem_cons.mp hf with hfg | hfr
    · subst hfg
      have hrest : ∀ h' ∈ rest, trimName h' ≠ trimName f := by
        intro h' hh' heq
        exact hgout (heq ▸ List.mem_map_of_mem trimName hh')
      calc getKey ((f :: rest).foldl (scoreStep t) sb) (trimName f)
          = getKey (rest.foldl (scoreStep t) (scoreStep t sb f)) (trimName f) := rfl
        _ = getKey (scoreStep t sb f) (trimName f) := foldl_scoreStep_other rest t _ _ hrest
        _ = _ := scoreStep_getKey_self t sb f hne
    · have hgf : trimName g ≠ trimName f := by
        intro heq
        exact hgout (heq ▸ List.mem_map_of_mem trimName hfr)
      have hkey : getKey (scoreStep t sb g) (trimName f) = getKey sb (trimName f) :=
        scoreStep_getKey_other t sb g (trimName f) hgf
      calc getKey ((g :: rest).foldl (scoreStep t) sb) (trimName f)
          = getKey (rest.foldl (scoreStep t) (scoreStep t sb g)) (trimName f) := rfl
        _ = _ := by rw [ih (scoreStep t sb g) f hfr hndrest hne, hkey]

/-- C2, counterexample to the claim as stated: in a 1-fighter run the
claim's formula `N − k + 1` awards the winner `1` point, but
`update_scoreboard` (scoreboard.py lines 26-29) adds a winner bonus and
stores `2` points. -/
theorem C2_counterexample :
    getKey (update_scoreboard [{ username := some "winner", order := 1, final_health := 62 }] [])
        "winner" = some ⟨2, 1⟩
      ∧ ¬ ((2 : Int) = 1 - 1 + 1) := by
  constructor
  · rfl
  · decide

/-- C2 (amended): `update_scoreboard` increases the points of the
participant finishing at order `k` among `N` ranked fighters by
`max 0 (N − k + 1)` **plus an additional winner bonus of 1 when
`k = 1`** (so the winner gains `N + 1` points, not `N`), and increments
that participant's runs by exactly 1, creating a zero-default entry on
first appearance (the `getD ⟨0, 0⟩`). -/
theorem C2_points_formula (ranking : List RankEntry) (sb : Scoreboard) (f : RankEntry)
    (hf : f ∈ ranking) (hnd : (ranking.map trimName).Nodup) (hne : trimName f ≠ "") :
    getKey (update_scoreboard ranking sb) (trimName f) =
      some ⟨((getKey sb (trimName f)).getD ⟨0, 0⟩).points
              + (max 0 ((ranking.length : Int) - f.order + 1)
                  + (if f.order = 1 then 1 else 0)),
            ((getKey sb (trimName f)).getD ⟨0, 0⟩).runs + 1⟩ :=
  foldl_scoreStep_delta ranking (ranking.length : Int) sb f hf hnd hne

/-- Witness for C2 at a concrete 2-fighter ranking over an empty
ledger: the winner "a" is stored with `2 + 1 = 3` points and 1 run. -/
theorem C2_points_formula_witness :
    getKey (update_scoreboard
        [{ username := some "a", order := 1, final_health := 50 },
         { username := some "b", order := 2, final_health := 0 }] [])
      (trimName { username := some "a", order := 1, final_health := 50 }) =
      some ⟨0 + (max 0 ((2 : Int) - 1 + 1) + 1), 0 + 1⟩ := by
  have h := C2_points_formula
    [{ username := some "a", order := 1, final_health := 50 },
     { username := some "b", order := 2, final_health := 0 }] []
    { username := some "a", order := 1, final_health := 50 }
    (by decide) (by decide) (by decide)
  simpa using h

/-! ## C10: entries keyed by the empty string -/

theorem foldl_invariant {σ β : Type} (step : σ → β → σ) (Inv : σ → Prop)
    (hstep : ∀ s b, Inv s → Inv (step s b)) :
    ∀ (l : List β) (s : σ), Inv s → Inv (l.foldl step s) := by
  intro l
  induction l with
  | nil => intro s h; exact h
  | cons b rest ih => intro s h; exact ih (step s b) (hstep s b h)

theorem foldl_invariant_mem {σ β : Type} (step : σ → β → σ) (Inv : σ → Prop) :
    ∀ (l : List β) (s : σ), (∀ b ∈ l, ∀ s, Inv s → Inv (step s b)) → Inv s →
      Inv (l.foldl step s) := by
  intro l
  induction l with
  | nil => intro s _ h; exact h
  | cons b rest ih =>
    intro s hstep h
    exact ih (step s b)
      (fun c hc s' hs' => hstep c (List.mem_cons_of_mem _ hc) s' hs')
      (hstep b (List.mem_cons_self b rest) s h)

theorem scoreStep_no_empty_key (t : Int) (sb : Scoreboard) (f : RankEntry)
    (h : ∀ p ∈ sb, p.1 ≠ "") : ∀ p ∈ scoreStep t sb f, p.1 ≠ "" := by
  unfold scoreStep
  by_cases he : trimName f = ""
  · simpa [he] using h
  · simp only [if_neg he]
    intro p hp
    rcases mem_setKey _ _ _ p hp with hk | hk
    · rw [hk]; exact he
    · exact h p hk

theorem statsRankStep_no_empty_key (now : Int) (st : Stats) (f : RankEntry)
    (h : ∀ p ∈ st, p.1 ≠ "") : ∀ p ∈ statsRankStep now st f, p.1 ≠ "" := by
  unfold statsRankStep
  by_cases he : trimName f = ""
  · simpa [he] using h
  · simp only [if_neg he]
    intro p hp
    rcases mem_setKey _ _ _ p hp with hk | hk
    · rw [hk]; exact he
    · exact h p hk

theorem statsDmgStep_no_empty_key (st : Stats) (att : String × List (String × DmgInfo))
    (hatt : att.1 ≠ "") (h : ∀ p ∈ st, p.1 ≠ "") :
    ∀ p ∈ statsDmgStep st att, p.1 ≠ "" := by
  unfold statsDmgStep
  intro p hp
  rcases mem_setKey _ _ _ p hp with hk | hk
  · rw [hk]; exact hatt
  · exact h p hk

theorem recomputeRivals_keys (st : Stats) :
    ∀ p ∈ recomputeRivals st, ∃ q ∈ st, p.1 = q.1 := by
  unfold recomputeRivals
  intro p hp
  rcases List.mem_map.mp hp with ⟨q, hq, hpq⟩
  exact ⟨q, hq, by rw [← hpq]⟩

/-- C10, counterexample to the claim as stated: `update_stats_with_battle`
copies damage-log attacker keys verbatim (stats.py lines 33-46 end with
`stats[attacker] = entry`, with no name check), so a damage log carrying
an empty attacker key creates a stats entry keyed by the empty string. -/
theorem C10_counterexample :
    (update_stats_with_battle [] [("", [])] 0 []).map Prod.fst = [""] := rfl

/-- C10 (amended): `update_scoreboard` never creates an entry keyed by
the empty string, and a ranking entry whose username is missing, empty or
whitespace-only is skipped entirely by both `update_scoreboard` and the
ranking loop of `update_stats_with_battle` (no points, runs, matches or
wins, state unchanged at that step).  For `update_stats_with_battle` the
no-empty-key guarantee additionally requires every attacker key of the
damage log to be non-empty: the damage-log loop copies attacker keys
verbatim (see the counterexample). -/
theorem C10_no_empty_string_keys :
    (∀ (ranking : List RankEntry) (sb : Scoreboard), (∀ p ∈ sb, p.1 ≠ "") →
        ∀ p ∈ update_scoreboard ranking sb, p.1 ≠ "") ∧
    (∀ (t : Int) (sb : Scoreboard) (f : RankEntry), trimName f = "" → scoreStep t sb f = sb) ∧
    (∀ (now : Int) (st : Stats) (f : RankEntry), trimName f = "" → statsRankStep now st f = st) ∧
    (∀ (ranking : List RankEntry) (dl : DamageLog) (now : Int) (st : Stats),
        (∀ p ∈ st, p.1 ≠ "") → (∀ q ∈ dl, q.1 ≠ "") →
        ∀ p ∈ update_stats_with_battle ranking dl now st, p.1 ≠ "") := by
  refine ⟨?_, ?_, ?_, ?_⟩
  · intro ranking sb h
    exact foldl_invariant _ (fun sb => ∀ p ∈ sb, p.1 ≠ "")
      (fun sb f hh => scoreStep_no_empty_key _ sb f hh) ranking sb h
  · intro t sb f h
    simp [scoreStep, h]
  · intro now st f h
    simp [statsRankStep, h]
  · intro ranking dl now st hst hdl p hp
    unfold update_stats_with_battle at hp
    rcases recomputeRivals_keys _ p hp with ⟨q, hq, hpq⟩
    rw [hpq]
    have h1 : ∀ p ∈ ranking.foldl (statsRankStep now) st, p.1 ≠ "" :=
      foldl_invariant _ (fun st => ∀ p ∈ st, p.1 ≠ "")
        (fun st f hh => statsRankStep_no_empty_key now st f hh) ranking st hst
    have h2 : ∀ p ∈ dl.foldl statsDmgStep (ranking.foldl (statsRankStep now) st), p.1 ≠ "" :=
      foldl_invariant_mem statsDmgStep (fun st => ∀ p ∈ st, p.1 ≠ "") dl _
        (fun b hb s hs => statsDmgStep_no_empty_key s b (hdl b hb) hs) h1
    exact h2 q hq

/-- Witness for C10 on concrete inputs: a created key is non-empty, and
whitespace-only ranking entries leave both documents untouched. -/
theorem C10_no_empty_string_keys_witness :
    ("a", ({ points := 2, runs := 1 } : ScoreEntry)).1 ≠ "" ∧
    scoreStep 3 [] { username := some "   ", order := 2, final_health := 0 } = [] ∧
    statsRankStep 7 [] { username := none, order := 1, final_health := 0 } = [] := by
  refine ⟨?_, ?_, ?_⟩
  · exact C10_no_empty_string_keys.1
      [{ username := some "a", order := 1, final_health := 0 }] [] (by intro p hp; cases hp)
      ("a", { points := 2, runs := 1 }) (by decide)
  · exact C10_no_empty_string_keys.2.1 3 [] _ (by decide)
  · exact C10_no_empty_string_keys.2.2.1 7 [] _ (by decide)

theorem argmax_foldl_spec (l : List (String × DmgInfo)) :
    ∀ best : String × DmgInfo,
      ((l.foldl (fun best kv => if best.2.damage < kv.2.damage then kv else best) best) = best
        ∨ (l.foldl (fun best kv => if best.2.damage < kv.2.damage then kv else best) best) ∈ l) ∧
      best.2.damage ≤ (l.foldl (fun best kv => if best.2.damage < kv.2.damage then kv else best) best).2.damage ∧
      ∀ q ∈ l, q.2.damage ≤ (l.foldl (fun best kv => if best.2.damage < kv.2.damage then kv else best) best).2.damage := by
  induction l with
  | nil => intro best; exact ⟨Or.inl rfl, le_refl _, by intro q hq; cases hq⟩
  | cons kv rest ih =>
    intro best
    rw [List.foldl_cons]
    obtain ⟨hmem, hle, hall⟩ := ih (if best.2.damage < kv.2.damage then kv else best)
    have hbest : best.2.damage ≤ (if best.2.damage < kv.2.damage then kv else best).2.damage := by
      by_cases h : best.2.damage < kv.2.damage
      · simp [h]; exact le_of_lt h
      · simp [h]
    have hkv : kv.2.damage ≤ (if best.2.damage < kv.2.damage then kv else best).2.damage := by
      by_cases h : best.2.damage < kv.2.damage
      · simp [h]
      · simp [h]; exact le_of_not_lt h
    refine ⟨?_, le_trans hbest hle, ?_⟩
    · rcases hmem with h | h
      · rw [h]
        by_cases hc : best.2.damage < kv.2.damage
        · right; simp [hc]
        · left; simp [hc]
      · exact Or.inr (List.mem_cons_of_mem _ h)
    · intro q hq
      rcases List.mem_cons.mp hq with h | h
      · rw [h]; exact le_trans hkv hle
      · exact hall q h

theorem recomputeRival_ok (e : StatsEntry) : rivalOK (recomputeRival e) := by
  unfold rivalOK recomputeRival
  by_cases h : e.damage_to = []
  · simp [h]
  · simp only [if_neg h]
    refine ⟨fun h0 => absurd h0 h, fun _ => ?_⟩
    show ∃ d, (argmaxDamage e.damage_to, d) ∈ e.damage_to ∧
      ∀ q ∈ e.damage_to, q.2.damage ≤ d.damage
    cases hdt : e.damage_to with
    | nil => exact absurd hdt h
    | cons hd tl =>
      obtain ⟨hmem, hle, hall⟩ := argmax_foldl_spec tl hd
      refine ⟨(tl.foldl (fun best kv => if best.2.damage < kv.2.damage then kv else best) hd).2,
        ?_, ?_⟩
      · show (argmaxDamage (hd :: tl), _) ∈ hd :: tl
        unfold argmaxDamage
        rw [Prod.mk.eta]
        rcases hmem with hm | hm
        · rw [hm]; exact List.mem_cons_self hd tl
        · exact List.mem_cons_of_mem _ hm
      · intro q hq
        rcases List.mem_cons.mp hq with h1 | h1
        · rw [h1]; exact hle
        · exact hall q h1

/-- C9: after `update_stats_with_battle` or `revert_stats_with_battle`
returns, every participant entry of the stats document has
`biggest_rival` equal to an opponent whose damage in that participant's
`damage_to` map is maximal, and equal to the empty string when
`damage_to` is empty — both functions end with the same recomputation
loop over every entry of the document. -/
theorem C9_biggest_rival_invariant :
    (∀ (ranking : List RankEntry) (dl : DamageLog) (now : Int) (st : Stats),
       ∀ p ∈ update_stats_with_battle ranking dl now st, rivalOK p.2) ∧
    (∀ (ranking : List RankEntry) (dl : DamageLog) (st : Stats),
       ∀ p ∈ revert_stats_with_battle ranking dl st, rivalOK p.2) := by
  constructor
  · intro ranking dl now st p hp
    unfold update_stats_with_battle recomputeRivals at hp
    rcases List.mem_map.mp hp with ⟨q, _, hpq⟩
    rw [← hpq]
    exact recomputeRival_ok q.2
  · intro ranking dl st p hp
    unfold revert_stats_with_battle recomputeRivals at hp
    rcases List.mem_map.mp hp with ⟨q, _, hpq⟩
    rw [← hpq]
    exact recomputeRival_ok q.2

/-- Witness for C9 on a concrete one-attacker damage log. -/
theorem C9_biggest_rival_invariant_witness :
    rivalOK ({ total_damage_dealt := 3, total_hits := 1,
               damage_to := [("b", ⟨3, 1⟩)], biggest_rival := "b" } : StatsEntry) :=
  C9_biggest_rival_invariant.1 [] [("a", [("b", ⟨3, 1⟩)])] 0 []
    ("a", { total_damage_dealt := 3, total_hits := 1,
            damage_to := [("b", ⟨3, 1⟩)], biggest_rival := "b" }) (by with_unfolding_all decide)

/-! ## C7: the collision-damage cooldown -/

theorem pairDamageFrames_ge :
    ∀ (contact : List Bool) (start : Nat) (mem : Option Nat),
      ∀ f ∈ pairDamageFrames 6 start mem contact, start ≤ f := by
  intro contact
  induction contact with
  | nil =>
    intro start mem f hf
    simp [pairDamageFrames] at hf
  | cons c rest ih =>
    intro start mem f hf
    unfold pairDamageFrames at hf
    by_cases hc : c = true
    · rw [if_pos hc] at hf
      dsimp only at hf
      cases mem with
      | none =>
        have hcd : (6 : Int) ≤ (start : Int) - (-999) := by omega
        rw [if_pos hcd] at hf
        rcases List.mem_cons.mp hf with h | h
        · exact h ▸ le_refl start
        · exact le_trans (Nat.le_succ start) (ih (start + 1) (some start) f h)
      | some l =>
        by_cases hcd : (6 : Int) ≤ (start : Int) - (l : Int)
        · rw [if_pos hcd] at hf
          rcases List.mem_cons.mp hf with h | h
          · exact h ▸ le_refl start
          · exact le_trans (Nat.le_succ start) (ih (start + 1) (some start) f h)
        · rw [if_neg hcd] at hf
          exact le_trans (Nat.le_succ start) (ih (start + 1) (some l) f hf)
    · rw [if_neg hc] at hf
      exact le_trans (Nat.le_succ start) (ih (start + 1) none f hf)

theorem pairDamageFrames_lower :
    ∀ (contact : List Bool), (∀ b ∈ contact, b = true) →
      ∀ (start last : Nat),
        ∀ f ∈ pairDamageFrames 6 start (some last) contact, last + 6 ≤ f := by
  intro contact
  induction contact with
  | nil =>
    intro _ start last f hf
    simp [pairDamageFrames] at hf
  | cons c rest ih =>
    intro hall start last f hf
    have hc : c = true := hall c (List.mem_cons_self c rest)
    have hrest : ∀ b ∈ rest, b = true := fun b hb => hall b (List.mem_cons_of_mem _ hb)
    unfold pairDamageFrames at hf
    rw [if_pos hc] at hf
    dsimp only at hf
    by_cases hcd : (6 : Int) ≤ (start : Int) - ((last : Nat) : Int)
    · rw [if_pos hcd] at hf
      have hls : last + 6 ≤ start := by omega
      rcases List.mem_cons.mp hf with h | h
      · omega
      · have := ih hrest (start + 1) start f h
        omega
    · rw [if_neg hcd] at hf
      have := ih hrest (start + 1) last f hf
      omega

/-- C7, counterexample to the claim as stated: a genuine three-frame
trajectory of the engine (two fighters near the right wall, exact
rational arithmetic throughout) in which the same pair produces damage
events at frame 0 and again at frame 2 — only 2 < 6 frames apart.  At
frame 0 the pair collides and is damaged, at frame 1 it has separated,
which makes `_apply_collisions` erase the pair's cooldown memory
(`collision_memory.pop`), and at frame 2 a wall bounce re-collides the
pair, whose damage guard now sees no recorded previous collision. -/
theorem C7_counterexample :
    let env : SimEnv := { arena_top := 300, arena_bottom := 900, starting_fighters := 2,
                          sprite_min_size := 100, sprite_max_size := 100 }
    let st0 : StepState :=
      { sprites := [{ id := 0, username := "a", x := 852.24375, y := 500, vx := 13.25, vy := 0 },
                    { id := 1, username := "b", x := 948.49375, y := 500, vx := 10, vy := 0 }],
        size := 100, mem := [], damage_log := [], rng := [10, 10, 10, 10], dirs := [] }
    let st1 := simStep env 0 st0
    let st2 := simStep env 1 st1
    let st3 := simStep env 2 st2
    getKey ((getKey st1.damage_log "a").getD []) "b" = some ⟨5, 1⟩ ∧
    getKey ((getKey st2.damage_log "a").getD []) "b" = some ⟨5, 1⟩ ∧
    getKey ((getKey st3.damage_log "a").getD []) "b" = some ⟨10, 2⟩ ∧
    st1.mem = [((0, 1), 0)] ∧ st2.mem = [] ∧ st3.mem = [((0, 1), 2)] ∧
    ¬ ((6 : Nat) ≤ 2 - 0) := by
  with_unfolding_all decide

/-- C7 (amended): the cooldown guard of `_apply_collisions` keeps two
damage events of the same pair at least `collision_cooldown_frames = 6`
simulation steps apart **only while the pair stays in contact at every
intervening step**: a contact-free frame erases the pair's cooldown
memory, after which the next collision may produce damage immediately
(see the counterexample).  Stated on the per-pair projection
`pairDamageFrames` of the `_apply_collisions` bookkeeping. -/
theorem C7_cooldown_spacing (contact : List Bool) (hc : ∀ b ∈ contact, b = true) :
    ∀ (start : Nat) (mem : Option Nat) (f1 f2 : Nat),
      f1 ∈ pairDamageFrames 6 start mem contact →
      f2 ∈ pairDamageFrames 6 start mem contact →
      f1 < f2 → 6 ≤ f2 - f1 := by
  induction contact with
  | nil =>
    intro start mem f1 f2 h1 _ _
    simp [pairDamageFrames] at h1
  | cons c rest ih =>
    intro start mem f1 f2 h1 h2 hlt
    have hch : c = true := hc c (List.mem_cons_self c rest)
    have hrest : ∀ b ∈ rest, b = true := fun b hb => hc b (List.mem_cons_of_mem _ hb)
    unfold pairDamageFrames at h1 h2
    rw [if_pos hch] at h1 h2
    dsimp only at h1 h2
    have hdmg : ∀ (m : Option Nat),
        f1 ∈ start :: pairDamageFrames 6 (start + 1) (some start) rest →
        f2 ∈ start :: pairDamageFrames 6 (start + 1) (some start) rest → 6 ≤ f2 - f1 := by
      intro m e1' e2'
      rcases List.mem_cons.mp e1' with e1 | e1 <;> rcases List.mem_cons.mp e2' with e2 | e2
      · omega
      · have := pairDamageFrames_lower rest hrest (start + 1) start f2 e2
        omega
      · have := pairDamageFrames_ge rest (start + 1) (some start) f1 e1
        omega
      · exact ih hrest (start + 1) (some start) f1 f2 e1 e2 hlt
    cases mem with
    | none =>
      have hcd : (6 : Int) ≤ (start : Int) - (-999) := by omega
      rw [if_pos hcd] at h1 h2
      exact hdmg none h1 h2
    | some l =>
      by_cases hcd : (6 : Int) ≤ (start : Int) - (l : Int)
      · rw [if_pos hcd] at h1 h2
        exact hdmg (some l) h1 h2
      · rw [if_neg hcd] at h1 h2
        exact ih hrest (start + 1) (some l) f1 f2 h1 h2 hlt

/-- Witness for C7 on an eight-frame continuous-contact trace: damage
falls at frames 0 and 6, and the theorem yields the 6-frame gap. -/
theorem C7_cooldown_spacing_witness : (6 : Nat) ≤ 6 - 0 :=
  C7_cooldown_spacing [true, true, true, true, true, true, true, true]
    (by decide) 0 none 0 6 (by decide) (by decide) (by decide)

/-! ## C8: overlap after collision resolution -/

theorem clamp_sprite_id (env : SimEnv) (size : ℚ) (s : Sprite)
    (h1 : 0 ≤ s.x) (h2 : s.x + size ≤ env.width)
    (h3 : env.arena_top ≤ s.y) (h4 : s.y + size ≤ env.arena_bottom) :
    clamp_sprite env size s = s := by
  unfold clamp_sprite
  dsimp only
  rw [if_neg (not_lt.mpr h1), if_neg (not_lt.mpr h2), if_neg (not_lt.mpr h3),
    if_neg (not_lt.mpr h4)]

/-- C8, counterexample to the claim as stated: one full
`_apply_collisions` pass on two approaching fighters next to the left
wall.  `_resolve_collision` separates the pair but pushes fighter `a`
past the wall; the boundary clamp inside `_resolve_collision` then moves
`a` back to `x = 0`, and the pass completes with the two alive fighters'
centers 85 px apart — an overlap of 15 px at diameter 100, far beyond
floating-point tolerance (the engine's own `_collides` still reports the
pair as colliding). -/
theorem C8_counterexample :
    let env : SimEnv := { arena_top := 300, arena_bottom := 900, starting_fighters := 2,
                          sprite_min_size := 100, sprite_max_size := 100 }
    let st : StepState :=
      { sprites := [{ id := 0, username := "a", x := 0, y := 500, vx := 10, vy := 0 },
                    { id := 1, username := "b", x := 70, y := 500, vx := -10, vy := 0 }],
        size := 100, mem := [], damage_log := [], rng := [10, 10], dirs := [] }
    let out := apply_collisions env 0 st
    (getIdx out.sprites 0).alive = true ∧ (getIdx out.sprites 1).alive = true ∧
    (getIdx out.sprites 0).x = 0 ∧ (getIdx out.sprites 1).x = 85 ∧
    (getIdx out.sprites 0).y = 500 ∧ (getIdx out.sprites 1).y = 500 ∧
    collides out.size (getIdx out.sprites 0) (getIdx out.sprites 1) = true := by
  with_unfolding_all decide

/-- C8 (amended): `_resolve_collision` itself leaves the pair it
resolves exactly one diameter apart (touching, no overlap) whenever the
center distance is exactly representable and the separated positions
stay clear of the arena walls; overlap at the end of a step can still
arise from the boundary clamp (see the counterexample) or from a later
resolution moving one of the two again. -/
theorem C8_resolve_exact_separation (env : SimEnv) (size : ℚ) (a b : Sprite)
    (hsize : 0 < size)
    (hpos : 0 < (a.x - b.x) * (a.x - b.x) + (a.y - b.y) * (a.y - b.y))
    (hcol : (a.x - b.x) * (a.x - b.x) + (a.y - b.y) * (a.y - b.y) < size * size)
    (hsq : ratSqrt ((a.x - b.x) * (a.x - b.x) + (a.y - b.y) * (a.y - b.y)) *
             ratSqrt ((a.x - b.x) * (a.x - b.x) + (a.y - b.y) * (a.y - b.y)) =
           (a.x - b.x) * (a.x - b.x) + (a.y - b.y) * (a.y - b.y))
    (hax : size / 2 ≤ a.x) (hax2 : a.x + size + size / 2 ≤ env.width)
    (hay : env.arena_top + size / 2 ≤ a.y) (hay2 : a.y + size + size / 2 ≤ env.arena_bottom)
    (hbx : size / 2 ≤ b.x) (hbx2 : b.x + size + size / 2 ≤ env.width)
    (hby : env.arena_top + size / 2 ≤ b.y) (hby2 : b.y + size + size / 2 ≤ env.arena_bottom) :
    ((resolve_collision env size a b).1.x - (resolve_collision env size a b).2.x) *
      ((resolve_collision env size a b).1.x - (resolve_collision env size a b).2.x) +
    ((resolve_collision env size a b).1.y - (resolve_collision env size a b).2.y) *
      ((resolve_collision env size a b).1.y - (resolve_collision env size a b).2.y)
      = size * size := by
  have hdxe : (a.x + size / 2) - (b.x + size / 2) = a.x - b.x := by ring
  have hdye : (a.y + size / 2) - (b.y + size / 2) = a.y - b.y := by ring
  unfold resolve_collision hypotQ
  dsimp only
  rw [hdxe, hdye]
  set dx := a.x - b.x with hdx0
  set dy := a.y - b.y with hdy0
  set s := dx * dx + dy * dy with hs0
  set d := ratSqrt s with hd0
  have hdnn : 0 ≤ d := ratSqrt_nonneg s
  have hd2 : d * d = s := hsq
  have hdne : d ≠ 0 := by
    intro h
    rw [h, mul_zero] at hd2
    rw [← hd2] at hpos
    exact lt_irrefl 0 hpos
  have hdpos : 0 < d := lt_of_le_of_ne hdnn (Ne.symm hdne)
  have hdlt : d < size := by nlinarith
  rw [if_neg hdne, if_neg (not_le.mpr hdlt)]
  set ovl := (size - d) / 2 with hovl0
  have hov : 0 < ovl := by rw [hovl0]; linarith
  have hov2 : ovl ≤ size / 2 := by rw [hovl0]; linarith
  have hdxle : dx ≤ d := by nlinarith [sq_nonneg dy]
  have hdxge : -d ≤ dx := by nlinarith [sq_nonneg dy]
  have hdyle : dy ≤ d := by nlinarith [sq_nonneg dx]
  have hdyge : -d ≤ dy := by nlinarith [sq_nonneg dx]
  have hqx1 : dx / d ≤ 1 := (div_le_one hdpos).mpr hdxle
  have hqx2 : -1 ≤ dx / d := by
    rw [neg_le, ← neg_div, div_le_one hdpos]
    linarith
  have hqy1 : dy / d ≤ 1 := (div_le_one hdpos).mpr hdyle
  have hqy2 : -1 ≤ dy / d := by
    rw [neg_le, ← neg_div, div_le_one hdpos]
    linarith
  have hdelx1 : dx / d * ovl ≤ ovl := by nlinarith
  have hdelx2 : -ovl ≤ dx / d * ovl := by nlinarith
  have hdely1 : dy / d * ovl ≤ ovl := by nlinarith
  have hdely2 : -ovl ≤ dy / d * ovl := by nlinarith
  have key : (a.x + dx / d * ovl - (b.x - dx / d * ovl)) *
        (a.x + dx / d * ovl - (b.x - dx / d * ovl)) +
      (a.y + dy / d * ovl - (b.y - dy / d * ovl)) *
        (a.y + dy / d * ovl - (b.y - dy / d * ovl)) = size * size := by
    have e1 : a.x + dx / d * ovl - (b.x - dx / d * ovl) = dx * size / d := by
      rw [hovl0]
      field_simp
      ring
    have e2 : a.y + dy / d * ovl - (b.y - dy / d * ovl) = dy * size / d := by
      rw [hovl0]
      field_simp
      ring
    rw [e1, e2]
    field_simp
    linear_combination (-(size ^ 2)) * hd2
  by_cases hclo : 0 ≤ (a.vx - b.vx) * (dx / d) + (a.vy - b.vy) * (dy / d)
  · rw [if_pos hclo]
    dsimp only
    exact key
  · rw [if_neg hclo]
    rw [clamp_sprite_id, clamp_sprite_id]
    · dsimp only
      exact key
    all_goals dsimp only
    · linarith
    · linarith
    · linarith
    · linarith
    · linarith
    · linarith
    · linarith
    · linarith

/-- Witness for C8: two axis-aligned fighters 90 px apart in mid-arena
end exactly 100 px apart (one diameter) after `_resolve_collision`. -/
theorem C8_resolve_exact_separation_witness :
    ((resolve_collision resolveWitnessEnv 100 resolveWitnessA resolveWitnessB).1.x -
        (resolve_collision resolveWitnessEnv 100 resolveWitnessA resolveWitnessB).2.x) *
      ((resolve_collision resolveWitnessEnv 100 resolveWitnessA resolveWitnessB).1.x -
        (resolve_collision resolveWitnessEnv 100 resolveWitnessA resolveWitnessB).2.x) +
    ((resolve_collision resolveWitnessEnv 100 resolveWitnessA resolveWitnessB).1.y -
        (resolve_collision resolveWitnessEnv 100 resolveWitnessA resolveWitnessB).2.y) *
      ((resolve_collision resolveWitnessEnv 100 resolveWitnessA resolveWitnessB).1.y -
        (resolve_collision resolveWitnessEnv 100 resolveWitnessA resolveWitnessB).2.y)
      = 100 * 100 :=
  C8_resolve_exact_separation resolveWitnessEnv 100 resolveWitnessA resolveWitnessB
    (by with_unfolding_all decide) (by with_unfolding_all decide)
    (by with_unfolding_all decide) (by with_unfolding_all rfl)
    (by with_unfolding_all decide) (by with_unfolding_all decide)
    (by with_unfolding_all decide) (by with_unfolding_all decide)
    (by with_unfolding_all decide) (by with_unfolding_all decide)
    (by with_unfolding_all decide) (by with_unfolding_all decide)

/-! ## C5, C6, C1: the run entry point and the reverter -/

/-- C5: on the empty roster the `run()` entry point aborts with
`ValueError("No followers provided for the fight.")` (video_battle.py
lines 88-90) before any simulation step and before any persistent state
— scoreboard, stats or run artifacts — is touched; the error carries no
successor store. -/
theorem C5_empty_roster_fails_fast (finalSprites : List Sprite) (damage_log : DamageLog)
    (now_ts total_frames : Int) (battle_name : String) (s : Store) :
    run [] finalSprites damage_log now_ts total_frames battle_name s =
      .error "No followers provided for the fight." := rfl

/-- C6: `revert_last_run` raises `SystemExit` and performs no mutation
whenever the last-run ranking document does not exist (scoreboard.py
lines 42-43) or the recorded ranking is empty (lines 45-47); both checks
precede every write. -/
theorem C6_revert_errors_without_run :
    (∀ s : Store, s.last_run = none →
        revert_last_run s = .error "No last run data found. Run a battle first.") ∧
    (∀ s : Store, s.last_run = some [] →
        revert_last_run s = .error "Last run data is empty; nothing to revert.") := by
  constructor
  · intro s h
    unfold revert_last_run
    rw [h]
  · intro s h
    unfold revert_last_run
    rw [h]
    rfl

/-- Witness for C6 at the two concrete degenerate stores. -/
theorem C6_revert_errors_without_run_witness :
    revert_last_run {} = .error "No last run data found. Run a battle first." ∧
    revert_last_run { last_run := some [] } =
      .error "Last run data is empty; nothing to revert." :=
  ⟨C6_revert_errors_without_run.1 {} rfl,
   C6_revert_errors_without_run.2 { last_run := some [] } rfl⟩

/-- C1: a `run` over a roster of size `1 ≤ N ≤ 50` (so the produced
ranking is non-empty and the pre-run backups are written) followed by
`revert_last_run` restores the whole persistent store — in particular
the Score Ledger and the Stats documents — exactly to its pre-run
contents: the backups are preferred and restored verbatim, the newly
written video and the four run artifacts are removed. -/
theorem C1_revert_after_run_restores (s : Store) (followers : List String)
    (finalSprites : List Sprite) (damage_log : DamageLog) (now_ts total_frames : Int)
    (battle_name : String)
    (hfol : followers ≠ [])
    (hlen : finalSprites.length = min followers.length 50) :
    (run followers finalSprites damage_log now_ts total_frames battle_name s).bind
        (fun p => revert_last_run p.1) =
      .ok { scoreboard := s.scoreboard, stats := s.stats, battles := s.battles } := by
  have hR : build_ranking finalSprites total_frames ≠ [] := by
    intro h
    have hl := build_ranking_length finalSprites total_frames
    rw [h, hlen] at hl
    have hfl : followers.length ≠ 0 := fun h0 => hfol (List.length_eq_zero.mp h0)
    simp at hl
    omega
  unfold run backup_run_state
  rw [if_neg hfol]
  dsimp only [Except.bind]
  unfold revert_last_run
  dsimp only
  rw [if_neg hR]
  simp [List.dropLast_concat]

/-- Witness for C1 at a one-follower roster over the empty store. -/
theorem C1_revert_after_run_restores_witness :
    (run ["a"] [{ id := 0, username := "a", x := 0, y := 0, vx := 0, vy := 0 }] []
        0 0 "battle_1.mp4" {}).bind (fun p => revert_last_run p.1) =
      .ok { scoreboard := [], stats := [], battles := [] } :=
  C1_revert_after_run_restores {} ["a"]
    [{ id := 0, username := "a", x := 0, y := 0, vx := 0, vy := 0 }] [] 0 0 "battle_1.mp4"
    (by decide) (by decide)

end UFC
